import Mathlib

/-!
Verification of the codeword success-probability engine of the
recurrent-csd repository (`src/csd/codeword.py`, `src/csd/engine.py`,
`src/csd/csd.py`) against its natural-language specification.

Python floats are modelled as rationals (`ℚ`); Python exceptions are
modelled with `Except String`; the randomness source (`random.choice`)
and the external strawberryfields simulation backend are modelled as
explicit function parameters.
-/

/-! ## Data model: `CodeWord` (`src/csd/codeword.py`) -/

/-- `A = 1` from `codeword.py`. -/
def A : ℚ := 1

/-- `MINUS_A = -1` from `codeword.py`. -/
def MINUS_A : ℚ := -1

/-- `DEFAULT_ALPHA_VALUE = 0.7` from `codeword.py`. -/
def DEFAULT_ALPHA_VALUE : ℚ := 7 / 10

/-- The `CodeWord` dataclass: a word (list of amplitudes) together with its
`alpha` scale.  In Python the fields are `_word` and `_alpha_value`. -/
structure CodeWord where
  word : List ℚ
  alpha : ℚ
deriving DecidableEq

/-- `CodeWord.size`: `len(self._word)`. -/
def CodeWord.size (c : CodeWord) : Nat := c.word.length

/-- `CodeWord.number_alphas`: `self._word.count(self.alpha)`. -/
def CodeWord.number_alphas (c : CodeWord) : Nat := c.word.count c.alpha

/-- `CodeWord.number_minus_alphas`: `self.size - self._word.count(self.alpha)`. -/
def CodeWord.number_minus_alphas (c : CodeWord) : Nat :=
  c.size - c.word.count c.alpha

/-- `CodeWord.zero_list`: `[0 if letter == self.alpha else -1 for letter in self.word]`. -/
def CodeWord.zero_list (c : CodeWord) : List Int :=
  c.word.map (fun letter => if letter = c.alpha then 0 else -1)

/-- Helper for `minus_indices`: walk the word with a running index and collect
the positions whose letter differs from `alpha`
(`np.where(np.array(self.word) != self.alpha)[0]`). -/
def minusIndicesAux (alpha : ℚ) : List ℚ → Nat → List Nat
  | [], _ => []
  | letter :: rest, i =>
      if letter ≠ alpha then i :: minusIndicesAux alpha rest (i + 1)
      else minusIndicesAux alpha rest (i + 1)

/-- `CodeWord.minus_indices`: list of indices where the word differs from `alpha`. -/
def CodeWord.minus_indices (c : CodeWord) : List Nat :=
  minusIndicesAux c.alpha c.word 0

/-- `CodeWord.to_list`: returns the word. -/
def CodeWord.to_list (c : CodeWord) : List ℚ := c.word

/-- Python structural equality of codewords (`__eq__` compares `word` only). -/
def CodeWord.pyEq (c d : CodeWord) : Prop := c.word = d.word

/-- `_create_word(samples, word_size)`: `[random.choice(samples) for _ in range(word_size)]`;
the random draws are supplied by `pick`. -/
def create_word (pick : Nat → ℚ) (word_size : Nat) : List ℚ :=
  (List.range word_size).map pick

/-- `_create_input_word(word, alpha_value)`: `list(alpha_value * np.array(word))`. -/
def create_input_word (word : List ℚ) (alpha_value : ℚ) : List ℚ :=
  word.map (fun x => alpha_value * x)

/-- `_create_random_word(word_size, alpha_value)`. -/
def create_random_word (pick : Nat → ℚ) (word_size : Nat) (alpha_value : ℚ) : List ℚ :=
  create_input_word (create_word pick word_size) alpha_value

/-- `CodeWord.__init__(size, alpha_value, word)`: when `word` is `None` a random
word of length `size` is generated (each draw taken from `{A, MINUS_A}` and
scaled by alpha); otherwise the supplied word is stored as given, without
validation.  `pick` supplies the random draws. -/
def mkCodeWord (size : Nat) (alpha_value : Option ℚ) (word : Option (List ℚ))
    (pick : Nat → ℚ) : CodeWord :=
  let a := alpha_value.getD DEFAULT_ALPHA_VALUE
  { alpha := a
    word := match word with
      | none => create_random_word pick size a
      | some w => w }

/-! ## Fock-index generator (`Engine._convert_word_to_fock_prob_indices`,
`src/csd/engine.py` lines 139-154) -/

/-- `itertools.product(l, repeat=n)` as a list of lists, in the same order. -/
def itproduct (l : List Nat) : Nat → List (List Nat)
  | 0 => [[]]
  | n + 1 => l.flatMap (fun x => (itproduct l n).map (fun t => x :: t))

/-- `dimensions_more_than_0_photons = [i for i in range(cutoff_dim) if i > 0]`. -/
def dimensions_more_than_0_photons (cutoff_dim : Nat) : List Nat :=
  (List.range cutoff_dim).filter (fun i => 0 < i)

/-- One pass of the inner loop: `for dimension, index in zip(minus_group,
minus_indices): zero_list[index] = dimension`. -/
def setGroup (zl : List Int) (minus_group : List Nat) (minus_indices : List Nat) : List Int :=
  (minus_group.zip minus_indices).foldl
    (fun acc di => acc.set di.2 (Int.ofNat di.1)) zl

/-- The outer loop of `_convert_word_to_fock_prob_indices`: the mutable
`zero_list` is threaded through the iterations, and a copy is appended after
each group is written into it. -/
def convertLoop (minus_indices : List Nat) : List Int → List (List Nat) → List (List Int)
  | _, [] => []
  | zl, g :: gs =>
      let zl2 := setGroup zl g minus_indices
      zl2 :: convertLoop minus_indices zl2 gs

/-- `Engine._convert_word_to_fock_prob_indices(codeword, cutoff_dim)`. -/
def convert_word_to_fock_prob_indices (codeword : CodeWord) (cutoff_dim : Nat) :
    List (List Int) :=
  if codeword.number_minus_alphas = 0 then
    [List.replicate codeword.size 0]
  else
    convertLoop codeword.minus_indices codeword.zero_list
      (itproduct (dimensions_more_than_0_photons cutoff_dim) codeword.number_minus_alphas)

/-! ### Lemmas for claim C1 -/

lemma length_bind_const {α β : Type} (l : List α) (f : α → List β) (k : Nat)
    (h : ∀ a ∈ l, (f a).length = k) : (l.flatMap f).length = l.length * k := by
  induction l with
  | nil => simp
  | cons x xs ih =>
      simp only [List.flatMap_cons, List.length_append, List.length_cons]
      rw [h x (List.mem_cons_self x xs), ih (fun a ha => h a (List.mem_cons_of_mem x ha))]
      ring

lemma itproduct_length (l : List Nat) (n : Nat) :
    (itproduct l n).length = l.length ^ n := by
  induction n with
  | zero => simp [itproduct]
  | succ n ih =>
      rw [itproduct, length_bind_const l _ ((itproduct l n).length)]
      · rw [ih]; ring
      · intro a _; simp

lemma dimensions_length (cutoff_dim : Nat) :
    (dimensions_more_than_0_photons cutoff_dim).length = cutoff_dim - 1 := by
  induction cutoff_dim with
  | zero => simp [dimensions_more_than_0_photons]
  | succ n ih =>
      unfold dimensions_more_than_0_photons at *
      rw [List.range_succ, List.filter_append, List.length_append, ih]
      cases n with
      | zero => simp
      | succ m =>
          have h1 : (List.filter (fun i => decide (0 < i)) [m + 1]).length = 1 := by simp
          omega

lemma setGroup_length (zl : List Int) (g idxs : List Nat) :
    (setGroup zl g idxs).length = zl.length := by
  unfold setGroup
  generalize g.zip idxs = ps
  induction ps generalizing zl with
  | nil => rfl
  | cons p ps ih => simp only [List.foldl_cons]; rw [ih]; simp

lemma convertLoop_length (mi : List Nat) (zl : List Int) (gs : List (List Nat)) :
    (convertLoop mi zl gs).length = gs.length := by
  induction gs generalizing zl with
  | nil => rfl
  | cons g gs ih => simp only [convertLoop, List.length_cons]; rw [ih]

lemma convertLoop_mem_length (mi : List Nat) (zl : List Int) (gs : List (List Nat))
    (t : List Int) (ht : t ∈ convertLoop mi zl gs) : t.length = zl.length := by
  induction gs generalizing zl with
  | nil => simp [convertLoop] at ht
  | cons g gs ih =>
      simp only [convertLoop, List.mem_cons] at ht
      rcases ht with h | h
      · rw [h, setGroup_length]
      · rw [ih _ h, setGroup_length]

lemma zero_list_length (c : CodeWord) : c.zero_list.length = c.size := by
  simp [CodeWord.zero_list, CodeWord.size]

/-- Claim C1: for a codeword hypothesis with `m > 0` non-reference positions
and cutoff dimension `D`, `_convert_word_to_fock_prob_indices` returns exactly
`(D-1)^m` index tuples, each of length equal to the codeword size; with
`m = 0` it returns exactly the one all-zero tuple of that length. -/
theorem claim1_fock_index_generator_counts (c : CodeWord) (D : Nat) :
    (0 < c.number_minus_alphas →
      (convert_word_to_fock_prob_indices c D).length = (D - 1) ^ c.number_minus_alphas ∧
      ∀ t ∈ convert_word_to_fock_prob_indices c D, t.length = c.size) ∧
    (c.number_minus_alphas = 0 →
      convert_word_to_fock_prob_indices c D = [List.replicate c.size 0]) := by
  constructor
  · intro hm
    unfold convert_word_to_fock_prob_indices
    rw [if_neg (by omega)]
    constructor
    · rw [convertLoop_length, itproduct_length, dimensions_length]
    · intro t ht
      rw [convertLoop_mem_length _ _ _ _ ht, zero_list_length]
  · intro hm
    unfold convert_word_to_fock_prob_indices
    rw [if_pos hm]

/-- Witness for claim C1 at a concrete codeword (`word = [1, -1]`,
`alpha = 1`, so `m = 1`) and cutoff dimension `3`. -/
theorem claim1_fock_index_generator_counts_witness :
    0 < (⟨[1, -1], 1⟩ : CodeWord).number_minus_alphas ∧
    (convert_word_to_fock_prob_indices ⟨[1, -1], 1⟩ 3).length =
      (3 - 1) ^ (⟨[1, -1], 1⟩ : CodeWord).number_minus_alphas ∧
    ∀ t ∈ convert_word_to_fock_prob_indices ⟨[1, -1], 1⟩ 3,
      t.length = (⟨[1, -1], 1⟩ : CodeWord).size :=
  ⟨by decide, (claim1_fock_index_generator_counts ⟨[1, -1], 1⟩ 3).1 (by decide)⟩

/-! ## Codeword enumerator

Modelled from the spec: `generate_all_codewords_from_codeword` lives in
`csd/util.py`, which is not among the provided source files (only its caller
`src/csd/engine.py` is).  Per the spec (section 4.1) it returns the reference
codeword unchanged followed by the codeword obtained by flipping every
symbol's sign. -/

/-- The complement of a codeword: every symbol's sign is flipped, the alpha
scale is kept. -/
def CodeWord.complement (c : CodeWord) : CodeWord :=
  { word := c.word.map (fun x => -x), alpha := c.alpha }

/-- Modelled from the spec: `generate_all_codewords_from_codeword` (from the
missing `csd/util.py`) returns exactly `[c, complement c]` in that order. -/
def generate_all_codewords_from_codeword (c : CodeWord) : List CodeWord :=
  [c, c.complement]

/-- Claim C4: the enumerator returns exactly `[c, complement c]` in that
deterministic order, and complement is an involution under the Python
structural equality on `word`. -/
theorem claim4_enumerator_and_involution (c : CodeWord) :
    generate_all_codewords_from_codeword c = [c, c.complement] ∧
    c.complement.complement.pyEq c := by
  refine ⟨rfl, ?_⟩
  unfold CodeWord.complement CodeWord.pyEq
  simp

/-! ## Maximum-probability selection (`Engine._max_probability_codeword`,
`src/csd/engine.py` lines 38-47) -/

/-- `CodeWordSuccessProbability`: a codeword hypothesis paired with its
success probability. -/
structure CodeWordSuccessProbability where
  codeword : CodeWord
  success_probability : ℚ
deriving DecidableEq

/-- The loop body of `_max_probability_codeword`: replace the current best
only when the candidate's probability is strictly greater. -/
def maxStep (best c : CodeWordSuccessProbability) : CodeWordSuccessProbability :=
  if best.success_probability < c.success_probability then c else best

/-- `Engine._max_probability_codeword`: start from element 0, then scan the
whole list, upgrading on strict improvement.  Indexing an empty list raises
in Python, modelled by `none`. -/
def max_probability_codeword :
    List CodeWordSuccessProbability → Option CodeWordSuccessProbability
  | [] => none
  | x :: xs => some ((x :: xs).foldl maxStep x)

lemma maxFold_spec (ys : List CodeWordSuccessProbability)
    (b : CodeWordSuccessProbability) :
    b.success_probability ≤ (ys.foldl maxStep b).success_probability ∧
    (∀ c ∈ ys, c.success_probability ≤ (ys.foldl maxStep b).success_probability) ∧
    (ys.foldl maxStep b = b ∨
      ∃ y₁ y₂, ys = y₁ ++ (ys.foldl maxStep b) :: y₂ ∧
        b.success_probability < (ys.foldl maxStep b).success_probability ∧
        ∀ c ∈ y₁, c.success_probability < (ys.foldl maxStep b).success_probability) := by
  induction ys generalizing b with
  | nil => exact ⟨le_refl _, by simp, Or.inl rfl⟩
  | cons c cs ih =>
      simp only [List.foldl_cons]
      by_cases hc : b.success_probability < c.success_probability
      · have hstep : maxStep b c = c := by simp [maxStep, hc]
        rw [hstep]
        obtain ⟨ih1, ih2, ih3⟩ := ih c
        refine ⟨le_of_lt (lt_of_lt_of_le hc ih1), ?_, ?_⟩
        · intro d hd
          rcases List.mem_cons.mp hd with h | h
          · rw [h]; exact ih1
          · exact ih2 d h
        · rcases ih3 with h | ⟨y₁, y₂, hsplit, hlt, hall⟩
          · right
            exact ⟨[], cs, by rw [h]; rfl, by rw [h]; exact hc, by simp⟩
          · right
            refine ⟨c :: y₁, y₂, by exact congrArg (List.cons c) hsplit,
              lt_trans hc hlt, ?_⟩
            intro d hd
            rcases List.mem_cons.mp hd with h | h
            · rw [h]; exact hlt
            · exact hall d h
      · have hstep : maxStep b c = b := by simp [maxStep, hc]
        rw [hstep]
        obtain ⟨ih1, ih2, ih3⟩ := ih b
        refine ⟨ih1, ?_, ?_⟩
        · intro d hd
          rcases List.mem_cons.mp hd with h | h
          · rw [h]; exact le_trans (le_of_not_lt hc) ih1
          · exact ih2 d h
        · rcases ih3 with h | ⟨y₁, y₂, hsplit, hlt, hall⟩
          · left; exact h
          · right
            refine ⟨c :: y₁, y₂, by exact congrArg (List.cons c) hsplit, hlt, ?_⟩
            intro d hd
            rcases List.mem_cons.mp hd with h | h
            · rw [h]; exact lt_of_le_of_lt (le_of_not_lt hc) hlt
            · exact hall d h

/-- Claim C3: on a non-empty list, `_max_probability_codeword` returns an
element whose probability is maximal, and which is strictly greater than every
element placed before it in the list (so the first element encountered wins
exact ties — in particular the reference codeword beats its complement on a
tie). -/
theorem claim3_max_selection_first_wins (x : CodeWordSuccessProbability)
    (xs : List CodeWordSuccessProbability) :
    ∃ r l₁ l₂, max_probability_codeword (x :: xs) = some r ∧
      x :: xs = l₁ ++ r :: l₂ ∧
      (∀ c ∈ l₁, c.success_probability < r.success_probability) ∧
      (∀ c ∈ x :: xs, c.success_probability ≤ r.success_probability) := by
  obtain ⟨h1, h2, h3⟩ := maxFold_spec (x :: xs) x
  refine ⟨(x :: xs).foldl maxStep x, ?_⟩
  rcases h3 with h | ⟨y₁, y₂, hsplit, _, hall⟩
  · exact ⟨[], xs, rfl, by rw [h]; rfl, by simp, h2⟩
  · exact ⟨y₁, y₂, rfl, hsplit, hall, h2⟩

/-! ## Engine run options and measuring types (`src/csd/engine.py`) -/

/-- `MeasuringTypes` enum. -/
inductive MeasuringTypes where
  | sampling
  | probabilities
deriving DecidableEq

/-- `EngineRunOptions`: the fields of the options dict that `engine.py`
reads (`params`, `input_codeword`, `output_codeword`, `shots`,
`measuring_type`). -/
structure EngineRunOptions where
  params : List ℚ
  input_codeword : CodeWord
  output_codeword : CodeWord
  shots : Nat
  measuring_type : MeasuringTypes
deriving DecidableEq

/-- `Engine._run_circuit_sampling(circuit, options)`: reads `shots`, mutates
`options['shots'] = 1`, runs the circuit `shots` times collecting the first
mode's photon count of each run (supplied here by `samples`), estimates the
zero-photon probability as `(count of zero reads) / shots` (a
`ZeroDivisionError` when `shots == 0`), and pairs it with the enumerated
codewords.  Returns the mutated options together with the outcome. -/
def run_circuit_sampling (samples : Nat → Nat) (options : EngineRunOptions) :
    EngineRunOptions × Except String (List CodeWordSuccessProbability) :=
  let shots := options.shots
  let opts2 := { options with shots := 1 }
  if shots = 0 then
    (opts2, Except.error "ZeroDivisionError: division by zero")
  else
    let zeroReads := ((List.range shots).filter (fun i => samples i = 0)).length
    let zero_prob : ℚ := (zeroReads : ℚ) / (shots : ℚ)
    match generate_all_codewords_from_codeword options.output_codeword with
    | c0 :: c1 :: _ =>
        (opts2, Except.ok [⟨c0, zero_prob⟩, ⟨c1, 1 - zero_prob⟩])
    | _ => (opts2, Except.error "IndexError")

/-- `CodeWordIndices`: a codeword paired with its Fock-probability index
tuples. -/
structure CodeWordIndices where
  codeword : CodeWord
  indices : List (List Int)
deriving DecidableEq

/-- `Engine._get_fock_prob_indices_from_modes(codeword, cutoff_dimension)`:
raises a `ValueError` when the codeword size exceeds the cutoff dimension,
otherwise pairs every enumerated codeword with its Fock-probability indices. -/
def get_fock_prob_indices_from_modes (codeword : CodeWord) (cutoff_dimension : Nat) :
    Except String (List CodeWordIndices) :=
  if codeword.size > cutoff_dimension then
    Except.error "cutoff dimension MUST be equal or greater than modes"
  else
    Except.ok ((generate_all_codewords_from_codeword codeword).map
      (fun cw => ⟨cw, convert_word_to_fock_prob_indices cw cutoff_dimension⟩))

/-- `Engine._compute_fock_prob_one_word(state, fock_prob_indices_one_word)`:
sums the state's Fock probability (`fockProb`, the opaque backend state) over
the index tuples. -/
def compute_fock_prob_one_word (fockProb : List Int → ℚ)
    (fock_prob_indices_one_word : List (List Int)) : ℚ :=
  (fock_prob_indices_one_word.map fockProb).sum

/-- `Engine._compute_fock_probabilities_for_all_codewords(state, codeword,
cutoff_dim)`. -/
def compute_fock_probabilities_for_all_codewords (fockProb : List Int → ℚ)
    (codeword : CodeWord) (cutoff_dim : Nat) :
    Except String (List CodeWordSuccessProbability) :=
  (get_fock_prob_indices_from_modes codeword cutoff_dim).map
    (fun all_codewords_indices => all_codewords_indices.map
      (fun ci => ⟨ci.codeword, compute_fock_prob_one_word fockProb ci.indices⟩))

/-- `Engine._run_circuit_probabilities(circuit, options)`: mutates
`options['shots'] = 0`, runs the circuit once and converts the resulting
state (`fockProb`) into the per-hypothesis probabilities. -/
def run_circuit_probabilities (fockProb : List Int → ℚ) (cutoff_dim : Nat)
    (options : EngineRunOptions) :
    EngineRunOptions × Except String (List CodeWordSuccessProbability) :=
  let opts2 := { options with shots := 0 }
  (opts2, compute_fock_probabilities_for_all_codewords fockProb
    options.output_codeword cutoff_dim)

/-- `Engine.run_circuit_checking_measuring_type(circuit, options)`: dispatch
on the measuring type, then select the maximum-probability codeword. -/
def run_circuit_checking_measuring_type (samples : Nat → Nat)
    (fockProb : List Int → ℚ) (cutoff_dim : Nat) (options : EngineRunOptions) :
    EngineRunOptions × Except String CodeWordSuccessProbability :=
  let step :=
    if options.measuring_type = MeasuringTypes.sampling then
      run_circuit_sampling samples options
    else
      run_circuit_probabilities fockProb cutoff_dim options
  (step.1, step.2.bind (fun l =>
    match max_probability_codeword l with
    | some m => Except.ok m
    | none => Except.error "IndexError"))

/-- Claim C2: in sampling mode with `shots = S > 0` the engine returns exactly
the two hypothesis probabilities `(k/S, 1 - k/S)` for some integer
`k ∈ [0, S]`, `k/S` paired with the reference codeword and `1 - k/S` with its
complement, in that order; with `S = 0` the call fails. -/
theorem claim2_sampling_probability_shape (samples : Nat → Nat)
    (options : EngineRunOptions) :
    (options.shots = 0 →
      (run_circuit_sampling samples options).2 =
        Except.error "ZeroDivisionError: division by zero") ∧
    (0 < options.shots →
      ∃ k, k ≤ options.shots ∧
        (run_circuit_sampling samples options).2 =
          Except.ok [⟨options.output_codeword, (k : ℚ) / (options.shots : ℚ)⟩,
                     ⟨options.output_codeword.complement,
                       1 - (k : ℚ) / (options.shots : ℚ)⟩]) := by
  constructor
  · intro h
    simp [run_circuit_sampling, h]
  · intro h
    refine ⟨((List.range options.shots).filter (fun i => samples i = 0)).length,
      ?_, ?_⟩
    · calc ((List.range options.shots).filter (fun i => samples i = 0)).length
          ≤ (List.range options.shots).length := List.length_filter_le _ _
        _ = options.shots := List.length_range options.shots
    · simp only [run_circuit_sampling, generate_all_codewords_from_codeword]
      rw [if_neg (by omega)]

/-- Witness for claim C2: two shots that both read zero photons give the
probability pair `(2/2, 1 - 2/2)`. -/
theorem claim2_sampling_probability_shape_witness :
    ∃ k : Nat, k ≤ 2 ∧
      (run_circuit_sampling (fun _ => 0)
          ⟨[], ⟨[1], 1⟩, ⟨[1], 1⟩, 2, MeasuringTypes.sampling⟩).2 =
        Except.ok [⟨⟨[1], 1⟩, (k : ℚ) / (2 : ℚ)⟩,
                   ⟨CodeWord.complement ⟨[1], 1⟩, 1 - (k : ℚ) / (2 : ℚ)⟩] :=
  (claim2_sampling_probability_shape (fun _ => 0)
    ⟨[], ⟨[1], 1⟩, ⟨[1], 1⟩, 2, MeasuringTypes.sampling⟩).2 (by decide)

/-- Claim C5: computing the Fock-probability indices fails with a validation
error exactly when the codeword size exceeds the cutoff dimension; the
exact-probability run propagates that error, and no error is raised when the
size is within the cutoff. -/
theorem claim5_cutoff_validation (c : CodeWord) (D : Nat) :
    (c.size > D →
      get_fock_prob_indices_from_modes c D =
        Except.error "cutoff dimension MUST be equal or greater than modes" ∧
      ∀ fockProb : List Int → ℚ,
        compute_fock_probabilities_for_all_codewords fockProb c D =
          Except.error "cutoff dimension MUST be equal or greater than modes") ∧
    (c.size ≤ D →
      ∃ v, get_fock_prob_indices_from_modes c D = Except.ok v) := by
  constructor
  · intro h
    constructor
    · simp [get_fock_prob_indices_from_modes, h]
    · intro fockProb
      simp [compute_fock_probabilities_for_all_codewords,
        get_fock_prob_indices_from_modes, h, Except.map]
  · intro h
    unfold get_fock_prob_indices_from_modes
    rw [if_neg (Nat.not_lt.mpr h)]
    exact ⟨_, rfl⟩

/-- Witness for claim C5: a codeword of size 12 with cutoff 10 is rejected,
and one of size 1 with cutoff 10 is accepted. -/
theorem claim5_cutoff_validation_witness :
    (get_fock_prob_indices_from_modes ⟨List.replicate 12 1, 1⟩ 10 =
      Except.error "cutoff dimension MUST be equal or greater than modes") ∧
    ∃ v, get_fock_prob_indices_from_modes ⟨[1], 1⟩ 10 = Except.ok v :=
  ⟨((claim5_cutoff_validation ⟨List.replicate 12 1, 1⟩ 10).1 (by decide)).1,
   (claim5_cutoff_validation ⟨[1], 1⟩ 10).2 (by decide)⟩

/-- Claim C10: every engine run mutates the caller's options in place:
afterwards `shots` is 1 in sampling mode and 0 in probabilities mode,
regardless of the supplied value, while every other field is unchanged. -/
theorem claim10_options_shots_mutation (samples : Nat → Nat)
    (fockProb : List Int → ℚ) (cutoff_dim : Nat) (options : EngineRunOptions) :
    (run_circuit_checking_measuring_type samples fockProb cutoff_dim options).1 =
      { options with shots :=
          if options.measuring_type = MeasuringTypes.sampling then 1 else 0 } := by
  cases h : options.measuring_type <;>
    by_cases hs : options.shots = 0 <;>
      simp [run_circuit_checking_measuring_type, run_circuit_sampling,
        run_circuit_probabilities, generate_all_codewords_from_codeword, h, hs]

/-! ## Backend execution context (`Engine._run_circuit`, `src/csd/engine.py`
lines 112-125)

Modelled from the spec: the strawberryfields engine handle is an external
dependency.  Per the spec (sections 4.3 and 9) its execution context is a
`CLEAN → RUN → DIRTY → reset → CLEAN` state machine: running a program
against a dirty context is disallowed, `reset` clears it, and `run_progs`
is non-empty exactly when a previously executed program's state is still
held. -/

/-- The simulation backend's execution-context state. -/
inductive BackendContext where
  | clean
  | dirty
deriving DecidableEq

/-- `self._engine.run_progs` truthiness: non-empty exactly when a previously
executed program's state is still held. -/
def run_progs (s : BackendContext) : Bool := s = BackendContext.dirty

/-- `self._engine.reset()`: clears the execution context. -/
def engine_reset (_ : BackendContext) : BackendContext := BackendContext.clean

/-- Modelled from the spec: `self._engine.run(...)` (external backend)
succeeds on a clean context leaving it dirty, and is disallowed on a dirty
context. -/
def engine_run (s : BackendContext) : Except String BackendContext :=
  match s with
  | BackendContext.clean => Except.ok BackendContext.dirty
  | BackendContext.dirty => Except.error "program already executed on a dirty context"

/-- `Engine._run_circuit`'s context handling: reset the engine if it has
already been executed, then run. -/
def run_circuit_context (s : BackendContext) : Except String BackendContext :=
  let s2 := if run_progs s then engine_reset s else s
  engine_run s2

/-- A sequence of `n` engine runs on one engine instance, threading the
backend execution context. -/
def run_circuit_context_seq : Nat → BackendContext → Except String BackendContext
  | 0, s => Except.ok s
  | n + 1, s =>
      match run_circuit_context s with
      | Except.ok s2 => run_circuit_context_seq n s2
      | Except.error e => Except.error e

/-- Claim C6: in every sequence of engine calls on one engine instance the
backend is never asked to run while a prior program's state is still held —
every run in the sequence succeeds (the backend would reject a run on a dirty
context), from any starting context. -/
theorem claim6_reset_before_every_run (n : Nat) (s : BackendContext) :
    ∃ s2, run_circuit_context_seq n s = Except.ok s2 := by
  induction n generalizing s with
  | zero => exact ⟨s, rfl⟩
  | succ n ih =>
      have hstep : run_circuit_context s = Except.ok BackendContext.dirty := by
        cases s <;> rfl
      rw [run_circuit_context_seq, hstep]
      exact ih BackendContext.dirty

/-! ## Claim C8: the `CodeWord` construction invariant -/

/-- Counterexample to claim C8: `CodeWord(size=1, alpha_value=1, word=[3])`
stores the caller-supplied word unvalidated, so its single element is neither
`alpha` nor `-alpha`. -/
theorem claim8_invariant_counterexample :
    ¬ (∀ x ∈ (mkCodeWord 1 (some 1) (some [3]) (fun _ => 1)).word,
        x = (mkCodeWord 1 (some 1) (some [3]) (fun _ => 1)).alpha ∨
        x = -(mkCodeWord 1 (some 1) (some [3]) (fun _ => 1)).alpha) := by
  intro h
  have h3 := h 3 (by decide)
  revert h3
  decide

/-- Claim C8, amended: for a `CodeWord` built from a randomly generated word
(no caller-supplied word; each random draw is one of the samples `A = 1`,
`MINUS_A = -1`), every element of `word` is exactly `alpha` or `-alpha`; and
for every constructed `CodeWord` (random or caller-supplied) the `size`
attribute equals the length of `word`. -/
theorem claim8_invariant_amended (size : Nat) (alpha_value : Option ℚ)
    (word : Option (List ℚ)) (pick : Nat → ℚ)
    (hpick : ∀ i, pick i = A ∨ pick i = MINUS_A) :
    (∀ x ∈ (mkCodeWord size alpha_value none pick).word,
      x = (mkCodeWord size alpha_value none pick).alpha ∨
      x = -(mkCodeWord size alpha_value none pick).alpha) ∧
    (mkCodeWord size alpha_value word pick).size =
      (mkCodeWord size alpha_value word pick).word.length := by
  constructor
  · intro x hx
    simp only [mkCodeWord, create_random_word, create_input_word, create_word,
      List.mem_map, List.mem_range] at hx ⊢
    obtain ⟨y, ⟨i, _, hpi⟩, hmul⟩ := hx
    rcases hpick i with h1 | h1
    · left
      rw [← hmul, ← hpi, h1]
      simp [A]
    · right
      rw [← hmul, ← hpi, h1]
      simp [MINUS_A]
  · rfl

/-- Witness for the amended claim C8 at `size = 2`, default alpha, alternating
random draws. -/
theorem claim8_invariant_amended_witness :
    (∀ x ∈ (mkCodeWord 2 none none (fun i => if i % 2 = 0 then A else MINUS_A)).word,
      x = (mkCodeWord 2 none none (fun i => if i % 2 = 0 then A else MINUS_A)).alpha ∨
      x = -(mkCodeWord 2 none none (fun i => if i % 2 = 0 then A else MINUS_A)).alpha) ∧
    (mkCodeWord 2 none (some [3, 4]) (fun i => if i % 2 = 0 then A else MINUS_A)).size =
      (mkCodeWord 2 none (some [3, 4]) (fun i => if i % 2 = 0 then A else MINUS_A)).word.length :=
  ⟨(claim8_invariant_amended 2 none (some [3, 4])
      (fun i => if i % 2 = 0 then A else MINUS_A)
      (fun i => by by_cases h : i % 2 = 0 <;> simp [h])).1,
   (claim8_invariant_amended 2 none (some [3, 4])
      (fun i => if i % 2 = 0 then A else MINUS_A)
      (fun i => by by_cases h : i % 2 = 0 <;> simp [h])).2⟩

/-! ## Per-alpha optimization driver (`src/csd/csd.py`) -/

/-- `Backends` enum. -/
inductive Backends where
  | fock
  | gaussian
  | tensorflow
deriving DecidableEq

/-- The `Architecture` dict fields. -/
structure Architecture where
  number_qumodes : Nat
  number_layers : Nat
  displacement : Bool
  squeezing : Bool
  interferometer : Bool
deriving DecidableEq

/-- The `RunConfiguration` dict fields that `execute` reads; `steps` is an
optional key. -/
structure RunConfiguration where
  alphas : List ℚ
  backend : Backends
  measuring_type : MeasuringTypes
  shots : Nat
  batch_size : Nat
  cutoff_dim : Nat
  steps : Option Nat
deriving DecidableEq

/-- `CSD._set_plot_label(backend, measuring_type)`. -/
def set_plot_label (backend : Backends) (measuring_type : MeasuringTypes) : String :=
  match backend, measuring_type with
  | Backends.fock, MeasuringTypes.probabilities => "pFockProb(a)"
  | Backends.gaussian, MeasuringTypes.probabilities => "pGausProb(a)"
  | Backends.tensorflow, MeasuringTypes.probabilities => "pTFProb(a)"
  | Backends.fock, MeasuringTypes.sampling => "pFockSampl(a)"
  | Backends.tensorflow, MeasuringTypes.sampling => "pTFSampl(a)"
  | Backends.gaussian, MeasuringTypes.sampling => "pGausSampl(a)"

/-- The `ResultExecution` accumulator. -/
structure ResultExecution where
  alphas : List ℚ
  batches : List (List ℚ)
  opt_params : List (List ℚ)
  p_err : List ℚ
  p_succ : List ℚ
  backend : Backends
  measuring_type : MeasuringTypes
  plot_label : String
deriving DecidableEq

/-- `np.round(x, 2)` as used on the recorded alpha.  (NumPy resolves exact
half-cent ties to the even cent; such ties play no role in any property
proved here.) -/
def np_round_2 (x : ℚ) : ℚ := (round (x * 100) : Int) / 100

/-- `CSD._update_result(result, optimized_parameters)`: append one record —
the rounded alpha, the batch, the parameters, the current error probability
and `1 - error` as the success probability. -/
def update_result (result : ResultExecution) (alpha_value : ℚ) (batch : List ℚ)
    (optimized_parameters : List ℚ) (current_p_err : ℚ) : ResultExecution :=
  { result with
    alphas := result.alphas ++ [np_round_2 alpha_value]
    batches := result.batches ++ [batch]
    opt_params := result.opt_params ++ [optimized_parameters]
    p_err := result.p_err ++ [current_p_err]
    p_succ := result.p_succ ++ [1 - current_p_err] }

/-- `CSD._init_result()`. -/
def init_result (config : RunConfiguration) : ResultExecution :=
  { alphas := []
    batches := []
    opt_params := []
    p_err := []
    p_succ := []
    backend := config.backend
    measuring_type := config.measuring_type
    plot_label := set_plot_label config.backend config.measuring_type }

/-- `CSD._set_learning_steps()`: the configured step count on the
tensorflow backend (falling back to the default), otherwise a single step. -/
def set_learning_steps (config : RunConfiguration) (default_steps : Nat) : Nat :=
  if config.backend = Backends.tensorflow then config.steps.getD default_steps
  else 1

/-- `CSD._execute_for_one_alpha(learning_steps, optimization, result,
sample_alpha)`: run the optimization step `learning_steps` times keeping the
last step's batch, optimized parameters and current error probability
(`step_fn` stands for `_execute_for_one_alpha_and_step` plus the cost
evaluation, which involve the random batch, the engine and the external
minimizer), then append one record.  With zero steps the Python loop body
never runs and `_update_result` reads an unbound local — a `NameError`. -/
def execute_for_one_alpha (learning_steps : Nat)
    (step_fn : Nat → List ℚ × List ℚ × ℚ) (result : ResultExecution)
    (sample_alpha : ℚ) : Except String ResultExecution :=
  match (List.range learning_steps).foldl (fun _ i => some (step_fn i)) none with
  | none => Except.error "NameError: optimized_parameters is not defined"
  | some (batch, optimized_parameters, current_p_err) =>
      Except.ok (update_result result sample_alpha batch optimized_parameters
        current_p_err)

/-- The per-alpha loop of `CSD.execute`: one `_execute_for_one_alpha` call per
alpha value, threading the shared result accumulator. -/
def execute_alphas (alphas : List ℚ) (learning_steps : Nat)
    (step_fn : ℚ → Nat → List ℚ × List ℚ × ℚ) (result : ResultExecution) :
    Except String ResultExecution :=
  alphas.foldlM
    (fun r a => execute_for_one_alpha learning_steps (step_fn a) r a) result

/-! ### Lemmas for claim C7 -/

/-- The per-alpha record invariant: the five per-record lists stay the same
length and every recorded `(p_err, p_succ)` pair sums to 1. -/
def resultInv (r : ResultExecution) : Prop :=
  r.p_err.length = r.alphas.length ∧ r.p_succ.length = r.alphas.length ∧
  ∀ p ∈ r.p_err.zip r.p_succ, p.1 + p.2 = 1

lemma update_result_inv (r : ResultExecution) (a : ℚ) (b p : List ℚ) (e : ℚ)
    (h : resultInv r) : resultInv (update_result r a b p e) ∧
      (update_result r a b p e).alphas.length = r.alphas.length + 1 := by
  obtain ⟨h1, h2, h3⟩ := h
  refine ⟨⟨?_, ?_, ?_⟩, ?_⟩
  · simp [update_result, h1]
  · simp [update_result, h2]
  · intro q hq
    simp only [update_result] at hq
    rw [List.zip_append (by rw [h1, h2])] at hq
    rcases List.mem_append.mp hq with h | h
    · exact h3 q h
    · simp only [List.zip_cons_cons, List.zip_nil_right, List.mem_singleton] at h
      rw [h]
      ring
  · simp [update_result]

lemma execute_alphas_inv (alphas : List ℚ) (learning_steps : Nat)
    (hsteps : 0 < learning_steps) (step_fn : ℚ → Nat → List ℚ × List ℚ × ℚ)
    (r : ResultExecution) (h : resultInv r) :
    ∃ res, execute_alphas alphas learning_steps step_fn r = Except.ok res ∧
      resultInv res ∧ res.alphas.length = r.alphas.length + alphas.length := by
  induction alphas generalizing r with
  | nil => exact ⟨r, rfl, h, by simp⟩
  | cons a as ih =>
      obtain ⟨m, hm⟩ := Nat.exists_eq_succ_of_ne_zero (Nat.pos_iff_ne_zero.mp hsteps)
      have hrange : (List.range learning_steps).foldl
          (fun _ i => some (step_fn a i)) none ≠ none := by
        rw [hm, List.range_succ, List.foldl_append]
        simp
      obtain ⟨bpe, hbpe⟩ := Option.ne_none_iff_exists'.mp hrange
      obtain ⟨inv2, hlen⟩ := update_result_inv r a bpe.1 bpe.2.1 bpe.2.2 h
      obtain ⟨res, hres, hinv, hlen2⟩ := ih (update_result r a bpe.1 bpe.2.1 bpe.2.2) inv2
      refine ⟨res, ?_, hinv, ?_⟩
      · show (execute_for_one_alpha learning_steps (step_fn a) r a).bind _ = _
        rw [execute_for_one_alpha, hbpe]
        exact hres
      · rw [hlen2, hlen]
        simp only [List.length_cons]
        omega

/-- Claim C7: a driver execution over a list of alpha values (with a positive
step count) appends exactly one record per alpha value to the result
accumulator, and in every record the recorded success probability is `1`
minus the recorded error probability. -/
theorem claim7_one_record_per_alpha (config : RunConfiguration)
    (learning_steps : Nat) (step_fn : ℚ → Nat → List ℚ × List ℚ × ℚ)
    (hsteps : 0 < learning_steps) :
    ∃ res, execute_alphas config.alphas learning_steps step_fn
        (init_result config) = Except.ok res ∧
      res.alphas.length = config.alphas.length ∧
      res.p_err.length = config.alphas.length ∧
      res.p_succ.length = config.alphas.length ∧
      ∀ p ∈ res.p_err.zip res.p_succ, p.1 + p.2 = 1 := by
  have hinv : resultInv (init_result config) := by
    refine ⟨rfl, rfl, ?_⟩
    intro p hp
    simp [init_result] at hp
  obtain ⟨res, hres, ⟨h1, h2, h3⟩, hlen⟩ :=
    execute_alphas_inv config.alphas learning_steps hsteps step_fn
      (init_result config) hinv
  simp only [init_result, List.length_nil, Nat.zero_add] at hlen
  exact ⟨res, hres, hlen, by rw [h1, hlen], by rw [h2, hlen], h3⟩

/-- Witness for claim C7: alphas `[0.1, 0.5, 1.0]`, one optimization step
each, a constant step outcome — three records are appended. -/
theorem claim7_one_record_per_alpha_witness :
    ∃ res, execute_alphas
        (RunConfiguration.mk [1/10, 1/2, 1] Backends.fock
          MeasuringTypes.probabilities 100 10 2 none).alphas 1
        (fun _ _ => ([7/10], [0], 1/4))
        (init_result (RunConfiguration.mk [1/10, 1/2, 1] Backends.fock
          MeasuringTypes.probabilities 100 10 2 none)) = Except.ok res ∧
      res.alphas.length = 3 ∧
      res.p_err.length = 3 ∧
      res.p_succ.length = 3 ∧
      ∀ p ∈ res.p_err.zip res.p_succ, p.1 + p.2 = 1 :=
  claim7_one_record_per_alpha
    (RunConfiguration.mk [1/10, 1/2, 1] Backends.fock
      MeasuringTypes.probabilities 100 10 2 none)
    1 (fun _ _ => ([7/10], [0], 1/4)) (by decide)

/-! ## `CSD.execute` validation (`src/csd/csd.py` lines 190-227) -/

/-- Observable driver actions after validation: building the circuit,
building the engine, and running one optimization step. -/
inductive DriverEvent where
  | built_circuit
  | built_engine
  | ran_step
deriving DecidableEq

/-- `CSD.execute(configuration)`: validate the architecture (present, exactly
one layer and one qumode), copy the run configuration (`None.copy()` raises
before anything is built), then build the circuit and the engine, determine
the learning steps and run the per-alpha loop.  The returned event list
records which actions were reached: validation failures return an error with
no event. -/
def execute (architecture : Option Architecture)
    (configuration : Option RunConfiguration) (default_steps : Nat)
    (step_fn : ℚ → Nat → List ℚ × List ℚ × ℚ) :
    List DriverEvent × Except String ResultExecution :=
  match architecture with
  | none => ([], Except.error "No architecture specified")
  | some arch =>
      if arch.number_layers ≠ 1 ∨ arch.number_qumodes ≠ 1 then
        ([], Except.error "Experiment only available for ONE qumode and ONE layer")
      else
        match configuration with
        | none => ([], Except.error "AttributeError: NoneType object has no attribute copy")
        | some config =>
            let learning_steps := set_learning_steps config default_steps
            ([DriverEvent.built_circuit, DriverEvent.built_engine] ++
              config.alphas.flatMap
                (fun _ => List.replicate learning_steps DriverEvent.ran_step),
             execute_alphas config.alphas learning_steps step_fn
               (init_result config))

/-- Claim C9: with an architecture whose layer or qumode count differs from
1, or with a missing architecture, or a missing run configuration, `execute`
fails immediately: it returns an error having built no circuit, built no
engine and run no optimization step. -/
theorem claim9_execute_validation (architecture : Option Architecture)
    (configuration : Option RunConfiguration) (default_steps : Nat)
    (step_fn : ℚ → Nat → List ℚ × List ℚ × ℚ)
    (hbad : architecture = none ∨
      (∃ arch, architecture = some arch ∧
        (arch.number_layers ≠ 1 ∨ arch.number_qumodes ≠ 1)) ∨
      configuration = none) :
    ∃ e, execute architecture configuration default_steps step_fn =
      ([], Except.error e) := by
  rcases hbad with h | ⟨arch, harch, hdim⟩ | h
  · rw [h]
    exact ⟨_, rfl⟩
  · rw [harch]
    simp only [execute]
    rw [if_pos hdim]
    exact ⟨_, rfl⟩
  · cases architecture with
    | none => exact ⟨_, rfl⟩
    | some arch =>
        simp only [execute]
        by_cases hdim : arch.number_layers ≠ 1 ∨ arch.number_qumodes ≠ 1
        · rw [if_pos hdim]
          exact ⟨_, rfl⟩
        · rw [if_neg hdim, h]
          exact ⟨_, rfl⟩

/-- Witness for claim C9: a two-qumode architecture is rejected with nothing
built and no step run. -/
theorem claim9_execute_validation_witness :
    ∃ e, execute (some (Architecture.mk 2 1 true false false))
        (some (RunConfiguration.mk [7/10] Backends.fock
          MeasuringTypes.probabilities 100 10 2 none))
        100 (fun _ _ => ([], [], 0)) = ([], Except.error e) :=
  claim9_execute_validation (some (Architecture.mk 2 1 true false false))
    (some (RunConfiguration.mk [7/10] Backends.fock
      MeasuringTypes.probabilities 100 10 2 none))
    100 (fun _ _ => ([], [], 0))
    (Or.inr (Or.inl ⟨Architecture.mk 2 1 true false false, rfl, by decide⟩))
